/-
Verification of the highway-inventory backend core against its
natural-language specification.

The development shallowly embeds the four specified subsystems:

* the file-backed background report task store and its admission
  controller (`app/utils/async_report_manager.py`),
* the bulk asset ingestion engine (`app/crud/asset.py`,
  `create_assets_bulk`),
* the bulk photo reconciliation engine
  (`app/services/photo_upload.py`, `bulk_photo_upload`),
* the background report orchestrators
  (`app/services/background_reports.py`) and the geospatial report
  generator (`app/services/asset_report.py`).

External collaborators (PostgreSQL, the filesystem) are modelled as
oracles: each database or filesystem call is given its result by an
explicit parameter, constrained only by the collaborator contract the
code relies on (e.g. an INSERT .. RETURNING returns a subset of the
keys it was given).
-/
import Mathlib

namespace ReportManager

/-- Mirrors `ReportStatus` in `app/utils/async_report_manager.py`:
the three states a report task can be in. -/
inductive ReportStatus
  | pending
  | completed
  | failed
deriving DecidableEq, Repr

/-- The observable state of the `temp_reports` directory: which task
ids currently own a `.pending` marker, a completed `.xlsx` artifact,
and a `.failed` marker.  Each list holds distinct file names, as a
directory does. -/
structure Store where
  pendingFiles : List String
  completedFiles : List String
  failedFiles : List String
deriving DecidableEq, Repr

/-- The empty `temp_reports` directory. -/
def Store.empty : Store := ⟨[], [], []⟩

/-- Insert a file name into a directory listing; creating a file that
already exists (touch / overwrite) does not duplicate it. -/
def addFile (l : List String) (id : String) : List String :=
  if id ∈ l then l else id :: l

/-- A single filesystem operation performed by the task store.  The
mark-completed and mark-failed transitions each consist of two such
operations, in the order the source performs them. -/
inductive FileOp
  | createPending (id : String)
  | createCompleted (id : String)
  | createFailed (id : String)
  | deletePending (id : String)
  | deleteFile (id : String) (kind : ReportStatus)
deriving Repr

/-- Effect of one filesystem operation on the directory state. -/
def applyFileOp (s : Store) : FileOp → Store
  | .createPending id => { s with pendingFiles := addFile s.pendingFiles id }
  | .createCompleted id => { s with completedFiles := addFile s.completedFiles id }
  | .createFailed id => { s with failedFiles := addFile s.failedFiles id }
  | .deletePending id => { s with pendingFiles := s.pendingFiles.erase id }
  | .deleteFile id .pending => { s with pendingFiles := s.pendingFiles.erase id }
  | .deleteFile id .completed => { s with completedFiles := s.completedFiles.erase id }
  | .deleteFile id .failed => { s with failedFiles := s.failedFiles.erase id }

/-- Apply a sequence of filesystem operations in order. -/
def applyFileOps (s : Store) (ops : List FileOp) : Store :=
  ops.foldl applyFileOp s

/-- `create_pending_report`: touch the `.pending` marker. -/
def createPendingOps (id : String) : List FileOp :=
  [.createPending id]

/-- `mark_report_completed`: the source first writes the completed
`.xlsx` file and only then unlinks the `.pending` marker (the unlink
is guarded by an existence check, which `List.erase` reflects). -/
def markCompletedOps (id : String) : List FileOp :=
  [.createCompleted id, .deletePending id]

/-- `mark_report_failed`: the source first writes the `.failed` marker
file and only then unlinks the `.pending` marker. -/
def markFailedOps (id : String) : List FileOp :=
  [.createFailed id, .deletePending id]

/-- `get_report_status`, status component: a completed artifact wins,
then a pending marker, then a failed marker; with none of the three
the task is unknown or expired.  (The human-readable message of the
source tuple is presentation only and is not modelled.) -/
def getReportStatus (s : Store) (id : String) : Option ReportStatus :=
  if id ∈ s.completedFiles then some .completed
  else if id ∈ s.pendingFiles then some .pending
  else if id ∈ s.failedFiles then some .failed
  else none

/-- Whether at most one of the three task-state files exists for the
given task id, the invariant claimed for every intermediate point. -/
def atMostOneMarker (s : Store) (id : String) : Bool :=
  ((if id ∈ s.pendingFiles then 1 else 0) +
      (if id ∈ s.completedFiles then 1 else 0) +
      (if id ∈ s.failedFiles then 1 else 0)) ≤ 1

/-- `MAX_CONCURRENT_REPORTS` in `async_report_manager.py`. -/
def MAX_CONCURRENT_REPORTS : Nat := 1

/-- `count_pending_reports`: the number of `*.pending` files. -/
def countPendingReports (s : Store) : Nat :=
  s.pendingFiles.length

/-- `can_start_new_report`: admission check against the concurrency
ceiling, returning the denial reason that echoes the pending count.
The reason string reproduces the source literal byte for byte. -/
def canStartNewReport (s : Store) : Bool × Option String :=
  let currentPending := countPendingReports s
  if MAX_CONCURRENT_REPORTS ≤ currentPending then
    (false,
      some ("Ya hay " ++ toString currentPending ++
        " reporte(s) generÃ¡ndose. Por favor intente en unos minutos."))
  else
    (true, none)

/-- Outcome of the admission gate plus submission step of
`generate_excel_report_async` in `app/api/v1/endpoints/asset.py`:
either an HTTP 429 carrying the denial reason, or a freshly created
pending task. -/
inductive SubmitResult
  | denied (reason : String)
  | accepted (taskId : String)
deriving DecidableEq, Repr

/-- The admission gate followed by `create_pending_report`, as the
report endpoint performs them (lines 762-767 then the
`create_pending_report(task_id)` call): deny with the reason when the
gate refuses, otherwise create the pending marker for the fresh id. -/
def submitReport (s : Store) (newId : String) : SubmitResult × Store :=
  let c := canStartNewReport s
  if c.1 then
    (.accepted newId, applyFileOps s (createPendingOps newId))
  else
    (.denied (c.2.getD ""), s)

/-- Occurrence counts of the three marker files of a task id, the
abstraction the lifecycle proofs track (a healthy directory has each
count at 0 or 1, but the lemmas do not need that). -/
def filesCount (s : Store) (id : String) : Nat × Nat × Nat :=
  (s.pendingFiles.count id, s.completedFiles.count id, s.failedFiles.count id)

/-- A complete store operation, at the granularity of the public task
store interface: submit a fresh task (`create_pending_report`),
complete or fail a task (`mark_report_completed` / `mark_report_failed`,
each applying its two file operations), or run the expiration sweep
(`cleanup_old_reports`), whose age test is abstracted by the predicate
`del` saying which files are older than the expiration window. -/
inductive StoreOp
  | submit (id : String)
  | complete (id : String)
  | fail (id : String)
  | sweep (del : String → ReportStatus → Bool)

/-- Effect of one complete store operation on the directory. -/
def applyStoreOp (s : Store) : StoreOp → Store
  | .submit id => applyFileOps s (createPendingOps id)
  | .complete id => applyFileOps s (markCompletedOps id)
  | .fail id => applyFileOps s (markFailedOps id)
  | .sweep del =>
      { pendingFiles := s.pendingFiles.filter (fun t => !del t .pending)
        completedFiles := s.completedFiles.filter (fun t => !del t .completed)
        failedFiles := s.failedFiles.filter (fun t => !del t .failed) }

/-- Run a sequence of store operations in order (sequential calls). -/
def runStoreOps (s : Store) (ops : List StoreOp) : Store :=
  ops.foldl applyStoreOp s

/-- Whether a store operation addresses the given task id: a
submit/complete/fail on that id, or a sweep whose age predicate
deletes one of that id's files. -/
def opTouches (op : StoreOp) (id : String) : Bool :=
  match op with
  | .submit i => i == id
  | .complete i => i == id
  | .fail i => i == id
  | .sweep del => del id .pending || del id .completed || del id .failed

end ReportManager

namespace Ingestion

/-- Result of one batched `INSERT .. ON CONFLICT DO NOTHING .. RETURNING`
issued by `create_assets_bulk` in `app/crud/asset.py`: either the set of
natural keys actually inserted, or one of the two error categories the
per-batch handlers catch. -/
inductive BatchOutcome
  | ok (inserted : Finset ℕ)
  | integrityError
  | dataError
deriving DecidableEq

/-- Result of the final `INSERT .. ON CONFLICT DO UPDATE` upsert into the
conflictive table. -/
inductive UpsertOutcome
  | ok
  | integrityError
  | dataError
deriving DecidableEq, Repr

/-- The dictionary `create_assets_bulk` returns.  `failed` and
`failedIdInternos` are `Option`s because the empty-input branch of the
source returns a dictionary without the `failed` and
`failed_id_internos` keys. -/
structure BulkSummary where
  created : ℕ
  conflictive : ℕ
  total : ℕ
  failed : Option ℕ
  failedIdInternos : Option (List ℕ)
deriving DecidableEq, Repr

/-- Fuel-driven batch splitting; each step strips `bs` rows, so fuel
equal to the input length always suffices. -/
def chunksFuel (bs : ℕ) : ℕ → List ℕ → List (List ℕ)
  | _, [] => []
  | 0, _ :: _ => []
  | fuel + 1, a :: l =>
      if bs = 0 then []
      else (a :: l).take bs :: chunksFuel bs fuel ((a :: l).drop bs)

/-- `range(0, len(insert_data), batch_size)` slicing: split the input
into consecutive batches of `bs` rows (the last one possibly shorter). -/
def chunks (bs : ℕ) (l : List ℕ) : List (List ℕ) :=
  chunksFuel bs l.length l

/-- Accumulators of the batch loop of `create_assets_bulk`:
`all_inserted_id_internos` (a set), `all_conflictive_id_internos` and
`all_failed_id_internos` (lists, appended per batch). -/
structure BatchAcc where
  inserted : Finset ℕ
  conflictive : List ℕ
  failedIds : List ℕ

/-- One iteration of the batch loop: on success, record the returned
keys as inserted and the remaining batch keys as conflictive; on an
`IntegrityError` or `DataError`, mark the whole batch's key set as
failed and continue (the source does not re-raise).  The Python sets
`conflictive_in_batch` / `batch_id_internos` are appended in set
iteration order; only their membership and cardinality matter, so the
model appends each set as the deduplicated batch list (filtered for the
conflict case). -/
def procBatch (out : BatchOutcome) (acc : BatchAcc) (batch : List ℕ) : BatchAcc :=
  match out with
  | .ok ins =>
      { acc with
          inserted := acc.inserted ∪ ins
          conflictive := acc.conflictive ++ batch.dedup.filter (fun a => a ∉ ins) }
  | .integrityError =>
      { acc with failedIds := acc.failedIds ++ batch.dedup }
  | .dataError =>
      { acc with failedIds := acc.failedIds ++ batch.dedup }

/-- The batch loop, driven by the database oracle `outs` giving each
batch statement's outcome by batch index. -/
def procBatches (outs : ℕ → BatchOutcome) : ℕ → BatchAcc → List (List ℕ) → BatchAcc
  | _, acc, [] => acc
  | idx, acc, b :: bs => procBatches outs (idx + 1) (procBatch (outs idx) acc b) bs

/-- `create_assets_bulk`, with each candidate asset represented by its
natural key `id_interno` (the only attribute the partition outcome and
the returned summary depend on).  `outs` gives the per-batch insert
outcomes and `ups` the conflictive-upsert outcome.  Mirrors the source:
empty input returns immediately (without the `failed` keys and without
consulting the database); otherwise the batch loop runs, then — only if
conflictive keys were detected — the upsert, whose failure retroactively
marks every conflictive key as failed.  `cleaned_conflictive_data` is
rebuilt by filtering the whole input by membership in the conflictive
key list, exactly as the source list comprehension does. -/
def create_assets_bulk (assets : List ℕ) (batchSize : ℕ)
    (outs : ℕ → BatchOutcome) (ups : UpsertOutcome) : BulkSummary :=
  if assets.length = 0 then
    { created := 0, conflictive := 0, total := 0
      failed := none, failedIdInternos := none }
  else
    let acc := procBatches outs 0 ⟨∅, [], []⟩ (chunks batchSize assets)
    let post : ℕ × List ℕ :=
      if acc.conflictive.isEmpty then
        (0, acc.failedIds)
      else
        match ups with
        | .ok => ((assets.filter (fun a => a ∈ acc.conflictive)).length, acc.failedIds)
        | .integrityError => (0, acc.failedIds ++ acc.conflictive)
        | .dataError => (0, acc.failedIds ++ acc.conflictive)
    { created := acc.inserted.card
      conflictive := post.1
      total := assets.length
      failed := some post.2.length
      failedIdInternos := some (post.2.mergeSort (fun a b => a ≤ b)) }

end Ingestion

namespace PhotoUpload

/-- The two tables a photo id can resolve against, represented by the
`id_interno` keys they contain. -/
structure Tables where
  assetKeys : List ℕ
  conflictiveKeys : List ℕ

/-- `PhotoUploadResponse` from `app/schemas/asset.py` (schema module not
in the source tree; field set taken from the constructor calls in
`bulk_photo_upload`). -/
structure PhotoUploadResponse where
  success : Bool
  idInterno : ℕ
  photoName : Option String
  errorMessage : Option String
deriving DecidableEq, Repr

/-- One entry of the `upload_plan` built in phase 1. -/
structure PlanItem where
  idInterno : ℕ
  photoName : String
  isConflictive : Bool
deriving DecidableEq, Repr

/-- The not-found failure message of the resolution phase. -/
def assetNotFoundMsg : String :=
  "Asset not found in regular or conflictive tables"

/-- The phase-4 message for an item whose filesystem save succeeded but
whose database update did not. -/
def dbInconsistencyMsg : String :=
  "Photo saved to filesystem but database update failed"

/-- Phase 1 of `bulk_photo_upload`: resolve each id against the asset
table first, then the conflictive table; unresolved ids produce a
failed response immediately and are excluded from the plan.  Returns
(upload plan, not-found ids, not-found responses), each in input order.
`nameOf` abstracts `generate_photo_name` (a deterministic name derived
from the owning entity's installation date and the id; its text plays
no role in the claims proved here). -/
def resolvePhase (tb : Tables) (nameOf : ℕ → String) :
    List ℕ → List PlanItem × List ℕ × List PhotoUploadResponse
  | [] => ([], [], [])
  | id :: rest =>
      let r := resolvePhase tb nameOf rest
      if id ∈ tb.assetKeys then
        (⟨id, nameOf id, false⟩ :: r.1, r.2.1, r.2.2)
      else if id ∈ tb.conflictiveKeys then
        (⟨id, nameOf id, true⟩ :: r.1, r.2.1, r.2.2)
      else
        (r.1, id :: r.2.1,
          ⟨false, id, none, some assetNotFoundMsg⟩ :: r.2.2)

/-- Phase 2: attempt every planned filesystem save independently.
`fsOut id = none` means the save succeeded; `some msg` is the exception
text of a failed save.  Returns (successful uploads, failed ids, failure
responses), each in plan order. -/
def fsPhase (fsOut : ℕ → Option String) :
    List PlanItem → List PlanItem × List ℕ × List PhotoUploadResponse
  | [] => ([], [], [])
  | it :: rest =>
      let r := fsPhase fsOut rest
      match fsOut it.idInterno with
      | none => (it :: r.1, r.2.1, r.2.2)
      | some msg =>
          (r.1, it.idInterno :: r.2.1,
            ⟨false, it.idInterno, none,
              some ("Error saving photo: " ++ msg)⟩ :: r.2.2)

/-- `_bulk_update_asset_photos` when its statements all execute: one
`UPDATE .. RETURNING` per id, collecting the ids whose statement
affected a row.  `row id` says whether a row matched; the source's
truthiness test `if updated_id:` additionally drops a returned key
equal to 0. -/
def bulkUpdateAssetPhotos (row : ℕ → Bool) (updates : List ℕ) : List ℕ :=
  updates.filter (fun id => row id && !(id == 0))

/-- Phase 3 of `bulk_photo_upload`.  `dbReg` / `dbConf` are the two
`_bulk_update_asset_photos` calls: `.error` means the call raised (the
enclosing transaction is then rolled back), `.ok row` gives the per-id
row-match results.  Both calls sit inside one `try`; on any exception
the handler clears `successful_db_updates` and marks every
phase-2-successful item as a database failure.  Returns
(successful db updates, phase-3-threw flag, ids named in issued update
statements — on a throw the full request list over-approximates the
issued prefix, which is enough for the never-mentioned claims). -/
def phase3Run (dbReg dbConf : Except Unit (ℕ → Bool))
    (regular confl uploadIds : List ℕ) : List ℕ × Bool × List ℕ :=
  if uploadIds.isEmpty then ([], false, [])
  else if regular.isEmpty then
    if confl.isEmpty then ([], false, [])
    else
      match dbConf with
      | .error _ => ([], true, confl)
      | .ok rowC => (bulkUpdateAssetPhotos rowC confl, false, confl)
  else
    match dbReg with
    | .error _ => ([], true, regular)
    | .ok rowR =>
        let updatedReg := bulkUpdateAssetPhotos rowR regular
        if confl.isEmpty then (updatedReg, false, regular)
        else
          match dbConf with
          | .error _ => ([], true, regular ++ confl)
          | .ok rowC =>
              (updatedReg ++ bulkUpdateAssetPhotos rowC confl, false,
                regular ++ confl)

/-- Everything observable about one `bulk_photo_upload` call: the
response, plus the filesystem and database traces the isolation claims
quantify over. -/
structure BulkTrace where
  results : List PhotoUploadResponse
  totalProcessed : ℕ
  totalSuccessful : ℕ
  totalFailed : ℕ
  fsSaveIds : List ℕ
  dbStatementIds : List ℕ
  phase2SucceededIds : List ℕ
  phase3Threw : Bool
deriving DecidableEq, Repr

/-- `bulk_photo_upload` (phases 1–4; the validation gate precedes any
side effect and is outside these claims).  `ids` are the request's
`ids_internos`; the photos themselves only influence the filesystem
oracle `fsOut`.  Result order follows the source: not-found failures
(phase 1), filesystem failures (phase 2), then one entry per
phase-2-successful item (phase 4). -/
def bulk_photo_upload (tb : Tables) (nameOf : ℕ → String)
    (fsOut : ℕ → Option String) (dbReg dbConf : Except Unit (ℕ → Bool))
    (ids : List ℕ) : BulkTrace :=
  let r1 := resolvePhase tb nameOf ids
  let plan := r1.1
  let nfRes := r1.2.2
  let r2 := fsPhase fsOut plan
  let succUp := r2.1
  let fsRes := r2.2.2
  let regular := (succUp.filter (fun it => !it.isConflictive)).map (·.idInterno)
  let confl := (succUp.filter (fun it => it.isConflictive)).map (·.idInterno)
  let r3 := phase3Run dbReg dbConf regular confl (succUp.map (·.idInterno))
  let sdb := r3.1
  let threw := r3.2.1
  let stmts := r3.2.2
  let p4Res := succUp.map (fun it =>
    if it.idInterno ∈ sdb then
      ({ success := true, idInterno := it.idInterno,
         photoName := some it.photoName, errorMessage := none } : PhotoUploadResponse)
    else
      { success := false, idInterno := it.idInterno,
        photoName := none, errorMessage := some dbInconsistencyMsg })
  let results := nfRes ++ fsRes ++ p4Res
  let totalSuccessful := (results.filter (fun r => r.success)).length
  { results := results
    totalProcessed := ids.length
    totalSuccessful := totalSuccessful
    totalFailed := ids.length - totalSuccessful
    fsSaveIds := plan.map (·.idInterno)
    dbStatementIds := stmts
    phase2SucceededIds := succUp.map (·.idInterno)
    phase3Threw := threw }

end PhotoUpload

namespace BackgroundReports

/-- A Python exception, abstracted to its `str(e)` text. -/
structure Exn where
  msg : String
deriving DecidableEq, Repr

/-- An in-memory byte buffer (`BytesIO` contents). -/
abbrev Buffer := List ℕ

/-- The terminal task-store transition a background orchestrator run
performs for its task id. -/
inductive TaskAction
  | markCompleted (content : Buffer)
  | markFailed (msg : String)
deriving DecidableEq, Repr

/-- ASCII single quote, written without an apostrophe literal. -/
def sq : String := String.singleton (Char.ofNat 39)

/-- `f"Proyecto de contrato '{contract_name}' no encontrado"`. -/
def contractNotFoundMsg (n : String) : String :=
  "Proyecto de contrato " ++ sq ++ n ++ sq ++ " no encontrado"

/-- `f"Tipo de elemento '{element_type}' no encontrado"`. -/
def elementNotFoundMsg (n : String) : String :=
  "Tipo de elemento " ++ sq ++ n ++ sq ++ " no encontrado"

/-- `f"Error interno al generar el reporte: {str(e)}"`. -/
def internalErrorMsg (e : Exn) : String :=
  "Error interno al generar el reporte: " ++ e.msg

/-- The message used when `mark_report_completed` returns `False`. -/
def saveFailedMsg : String := "Error al guardar el archivo del reporte"

/-- `str(e)` of the `AttributeError` raised by calling `.getvalue()` on
`None` (the Python runtime's message for the attribute access). -/
def noneGetvalueMsg : String :=
  "NoneType object has no attribute getvalue"

/-- Oracle for one orchestrator run, over asset row type `α`: results
of the two lookups, the row fetch, and whether
`mark_report_completed` manages to persist the artifact.  Lookups and
the fetch may themselves raise. -/
structure Oracle (α : Type) where
  contractFound : Except Exn Bool
  elementFound : Except Exn Bool
  fetchAssets : Except Exn (List α)
  markCompletedOk : Bool

/-- `excel_buffer.getvalue()` when the generator may have returned
`None`: on `None` the attribute access raises. -/
def getvalueOpt : Option Buffer → Except Exn Buffer
  | some b => .ok b
  | none => .error ⟨noneGetvalueMsg⟩

/-- The `try` body of `generate_excel_report_background` (steps 2–5):
lookups, fetch, generator, then completion — with the not-found cases
as normal terminal outcomes and `mark_report_completed` returning
`False` converted to a failure.  Errors propagate, to be caught by the
enclosing handler. -/
def orchTryTabular {α : Type} (elementFilter : Bool)
    (contractName elementName : String)
    (gen : List α → Except Exn Buffer) (o : Oracle α) :
    Except Exn TaskAction := do
  let found ← o.contractFound
  if !found then
    return .markFailed (contractNotFoundMsg contractName)
  let elemOk ← (if elementFilter then o.elementFound else .ok true)
  if !elemOk then
    return .markFailed (elementNotFoundMsg elementName)
  let assets ← o.fetchAssets
  let buf ← gen assets
  if o.markCompletedOk then
    return .markCompleted buf
  else
    return .markFailed saveFailedMsg

/-- `generate_excel_report_background`: the `try` body with the
catch-all handler converting any exception into
`mark_report_failed(task_id, "Error interno al generar el reporte: …")`. -/
def generate_excel_report_background {α : Type} (elementFilter : Bool)
    (contractName elementName : String)
    (gen : List α → Except Exn Buffer) (o : Oracle α) : TaskAction :=
  match orchTryTabular elementFilter contractName elementName gen o with
  | .ok a => a
  | .error e => .markFailed (internalErrorMsg e)

/-- The `try` body of `generate_installers_excel_report_background`:
identical to the tabular one except that the generator returns an
optional buffer and its result goes through `.getvalue()`. -/
def orchTryInstallers {α : Type} (elementFilter : Bool)
    (contractName elementName : String)
    (gen : List α → Except Exn (Option Buffer)) (o : Oracle α) :
    Except Exn TaskAction := do
  let found ← o.contractFound
  if !found then
    return .markFailed (contractNotFoundMsg contractName)
  let elemOk ← (if elementFilter then o.elementFound else .ok true)
  if !elemOk then
    return .markFailed (elementNotFoundMsg elementName)
  let assets ← o.fetchAssets
  let bufOpt ← gen assets
  let buf ← getvalueOpt bufOpt
  if o.markCompletedOk then
    return .markCompleted buf
  else
    return .markFailed saveFailedMsg

/-- `generate_installers_excel_report_background`: the `try` body with
the same catch-all handler. -/
def generate_installers_excel_report_background {α : Type}
    (elementFilter : Bool) (contractName elementName : String)
    (gen : List α → Except Exn (Option Buffer)) (o : Oracle α) : TaskAction :=
  match orchTryInstallers elementFilter contractName elementName gen o with
  | .ok a => a
  | .error e => .markFailed (internalErrorMsg e)

/-- `generate_installers_excel_report` in `app/services/asset_report.py`:
returns `None` for an empty asset list, otherwise a workbook built from
the assets.  The spreadsheet rendering (`render`) is byte-layout detail
declared out of scope by the spec; the branch structure is the
source's. -/
def generate_installers_excel_report {α : Type} (render : List α → Buffer)
    (assets : List α) : Option Buffer :=
  if assets.isEmpty then none else some (render assets)

end BackgroundReports

namespace AssetReport

/-- One digit test, `[0-9]`. -/
def isDigit (c : Char) : Bool := c.isDigit

/-- Try to match the regex `-?\d+\.\d+` at the start of `cs`; on
success return the matched characters and the rest.  The pattern's
pieces use disjoint character classes, so the greedy left-to-right scan
needs no backtracking. -/
def matchNumAt (cs : List Char) : Option (List Char × List Char) :=
  let (neg, cs1) : List Char × List Char :=
    match cs with
    | '-' :: rest => (['-'], rest)
    | _ => ([], cs)
  let intPart := cs1.takeWhile isDigit
  let cs2 := cs1.dropWhile isDigit
  if intPart.isEmpty then none
  else
    match cs2 with
    | '.' :: cs3 =>
        let fracPart := cs3.takeWhile isDigit
        if fracPart.isEmpty then none
        else some (neg ++ intPart ++ ['.'] ++ fracPart, cs3.dropWhile isDigit)
    | _ => none

/-- `re.findall(r"-?\d+\.\d+", s)`: non-overlapping leftmost matches,
scanning left to right.  `fuel` bounds the recursion; every step
consumes at least one character, so `cs.length` fuel is always enough. -/
def scanNums : ℕ → List Char → List (List Char)
  | 0, _ => []
  | _ + 1, [] => []
  | fuel + 1, c :: rest =>
      match matchNumAt (c :: rest) with
      | some (m, rest2) => m :: scanNums fuel rest2
      | none => scanNums fuel rest

/-- All `-?\d+\.\d+` matches of a string. -/
def findDecimalNumbers (s : String) : List String :=
  (scanNums s.data.length s.data).map fun cs => String.mk cs

/-- Value of a digit character. -/
def digitVal (c : Char) : ℕ := c.toNat - 48

/-- Decimal value of a digit run. -/
def digitsVal (cs : List Char) : ℕ :=
  cs.foldl (fun n c => 10 * n + digitVal c) 0

/-- Value of an unsigned `\d+\.\d+` token. -/
def decTokenValue (cs : List Char) : ℚ :=
  let intPart := cs.takeWhile isDigit
  let rest := cs.dropWhile isDigit
  let fracPart := (rest.drop 1).takeWhile isDigit
  (digitsVal intPart : ℚ) +
    (digitsVal fracPart : ℚ) / ((10 : ℚ) ^ fracPart.length)

/-- Numeric value of one `-?\d+\.\d+` token (what `float()` computes on
it, read exactly; the claims depend only on parse success). -/
def decTokenToRat (cs : List Char) : ℚ :=
  match cs with
  | '-' :: rest => -(decTokenValue rest)
  | _ => decTokenValue cs

/-- `_parse_georef`: `None`/empty text parses to nothing; otherwise the
first two pattern matches give (lat, lon).  A `ValueError` cannot occur
since every match is a valid decimal literal. -/
def parseGeoref (georef : Option String) : Option (ℚ × ℚ) :=
  match georef with
  | none => none
  | some g =>
      if g.isEmpty then none
      else
        match findDecimalNumbers g with
        | m0 :: m1 :: _ => some (decTokenToRat m0.data, decTokenToRat m1.data)
        | _ => none

/-- A row as the KMZ generator consumes it. -/
structure KmzRow where
  idInterno : ℕ
  elemento : String
  georef : Option String
deriving Repr

/-- One valid (parsed) asset entry. -/
structure ValidAsset where
  idInterno : ℕ
  elemento : String
  lat : ℚ
  lon : ℚ
deriving Repr

/-- The partition loop of `generate_kmz_report`: rows whose
georeference parses are collected in order; the rest only bump the
skip counter. -/
def kmzPartition : List KmzRow → List ValidAsset × ℕ
  | [] => ([], 0)
  | r :: rest =>
      let v := kmzPartition rest
      match parseGeoref r.georef with
      | some (la, lo) => (⟨r.idInterno, r.elemento, la, lo⟩ :: v.1, v.2)
      | none => (v.1, v.2 + 1)

/-- `_escape_xml`: the five XML metacharacter replacements, in source
order. -/
def escapeXml (t : String) : String :=
  ((((t.replace "&" "&amp;").replace "<" "&lt;").replace ">" "&gt;").replace
      "\"" "&quot;").replace BackgroundReports.sq "&apos;"

/-- The `<Placemark>` fragment built for one valid asset. -/
def placemarkOf (a : ValidAsset) : String :=
  let idEsc := escapeXml (toString a.idInterno)
  let elemEsc := escapeXml a.elemento
  let name := if elemEsc.isEmpty then idEsc else idEsc ++ " - " ++ elemEsc
  "\n        <Placemark>\n            <name>" ++ name ++
    "</name>\n            <Point>\n                <coordinates>" ++
    toString a.lon ++ "," ++ toString a.lat ++
    ",0</coordinates>\n            </Point>\n        </Placemark>"

/-- What `generate_kmz_report` produces before zipping: the placemark
list, the document text, and the skip counter reported in the log
metadata. -/
structure KmzResult where
  placemarks : List String
  kml : String
  skippedCount : ℕ
deriving Repr

/-- `generate_kmz_report` on the ORM-asset path (the dict path differs
only in field access).  Unparseable rows are skipped and counted; the
document holds one placemark per valid row. -/
def generate_kmz_report (rows : List KmzRow) : KmzResult :=
  let pms := (kmzPartition rows).1.map placemarkOf
  { placemarks := pms
    kml := "<?xml version=\"1.0\" encoding=\"UTF-8\"?>\n<kml xmlns=\"http://www.opengis.net/kml/2.2\">\n  <Document>\n    <name>Activos Viales</name>\n    <description>Activos extraidos desde base de datos</description>\n    " ++
      String.join pms ++ "\n  </Document>\n</kml>\n"
    skippedCount := (kmzPartition rows).2 }

end AssetReport

namespace AssetReport

theorem kmzPartition_counts (rows : List KmzRow) :
    (kmzPartition rows).1.length =
      (rows.filter fun r => (parseGeoref r.georef).isSome).length ∧
    (kmzPartition rows).2 =
      (rows.filter fun r => (parseGeoref r.georef).isNone).length := by
  induction rows with
  | nil => simp [kmzPartition]
  | cons r rest ih =>
      obtain ⟨ih1, ih2⟩ := ih
      cases h : parseGeoref r.georef with
      | none => simp [kmzPartition, h, List.filter_cons, ih1, ih2]
      | some p =>
          obtain ⟨la, lo⟩ := p
          simp [kmzPartition, h, List.filter_cons, ih1, ih2]

end AssetReport

/-- C9: the geospatial (KMZ) report contains one placemark per input
row whose georeference text parses to a (lat, lon) pair — the pattern
match finding at least two decimal-form numbers — and every row whose
text fails to parse is excluded from the document and counted by the
skip counter, the report never aborting. -/
theorem c9_kmz_point_and_skip_counts (rows : List AssetReport.KmzRow) :
    (AssetReport.generate_kmz_report rows).placemarks.length =
      (rows.filter fun r => (AssetReport.parseGeoref r.georef).isSome).length ∧
    (AssetReport.generate_kmz_report rows).skippedCount =
      (rows.filter fun r => (AssetReport.parseGeoref r.georef).isNone).length := by
  have h := AssetReport.kmzPartition_counts rows
  constructor
  · simpa [AssetReport.generate_kmz_report] using h.1
  · simpa [AssetReport.generate_kmz_report] using h.2

/-- C8: on the empty input, `create_assets_bulk` returns the summary
with `created`, `conflictive` and `total` all zero but WITHOUT the
`failed` (and `failed_id_internos`) keys, for every database oracle —
no batch and no database statement is consulted.  The claim expects
`failed: 0` to be present; the route unconditionally reads
`result["failed"]`, so this branch makes it raise `KeyError`. -/
theorem c8_bulk_empty_input_summary (bs : ℕ)
    (outs : ℕ → Ingestion.BatchOutcome) (ups : Ingestion.UpsertOutcome) :
    Ingestion.create_assets_bulk [] bs outs ups =
      { created := 0, conflictive := 0, total := 0
        failed := none, failedIdInternos := none } := rfl

namespace Ingestion

theorem chunksFuel_flatten (bs : ℕ) (hbs : bs ≠ 0) :
    ∀ fuel l, l.length ≤ fuel → (chunksFuel bs fuel l).flatten = l := by
  intro fuel
  induction fuel with
  | zero =>
      intro l hl
      have : l = [] := List.eq_nil_of_length_eq_zero (Nat.le_zero.mp hl)
      subst this
      rfl
  | succ n ih =>
      intro l hl
      match l with
      | [] => rfl
      | a :: t =>
          have hdrop : ((a :: t).drop bs).length ≤ n := by
            simp only [List.length_drop, List.length_cons]
            simp only [List.length_cons] at hl
            omega
          simp only [chunksFuel, if_neg hbs, List.flatten_cons, ih _ hdrop,
            List.take_append_drop]

theorem chunks_flatten (bs : ℕ) (hbs : bs ≠ 0) (l : List ℕ) :
    (chunks bs l).flatten = l :=
  chunksFuel_flatten bs hbs l.length l le_rfl

/-- The measure the batch-loop bound tracks. -/
def BatchAcc.measure (acc : BatchAcc) : ℕ :=
  acc.inserted.card + acc.conflictive.length + acc.failedIds.length

theorem procBatch_measure (out : BatchOutcome) (acc : BatchAcc) (batch : List ℕ)
    (hval : ∀ ins, out = .ok ins → ins ⊆ batch.toFinset) :
    (procBatch out acc batch).measure ≤ acc.measure + batch.length := by
  cases out with
  | ok ins =>
      have hsub : ins ⊆ batch.toFinset := hval ins rfl
      have hnd : (batch.dedup.filter (fun a => a ∉ ins)).Nodup :=
        (batch.nodup_dedup).filter _
      have hset : (batch.dedup.filter (fun a => a ∉ ins)).toFinset =
          batch.toFinset \ ins := by
        ext x
        simp [List.mem_dedup, Finset.mem_sdiff, List.mem_toFinset]
      have hlen : (batch.dedup.filter (fun a => a ∉ ins)).length =
          batch.toFinset.card - ins.card := by
        rw [← List.toFinset_card_of_nodup hnd, hset, Finset.card_sdiff hsub]
      have hcard : ins.card ≤ batch.toFinset.card := Finset.card_le_card hsub
      have hbound : batch.toFinset.card ≤ batch.length := batch.toFinset_card_le
      have hunion : (acc.inserted ∪ ins).card ≤ acc.inserted.card + ins.card :=
        Finset.card_union_le _ _
      simp only [procBatch, BatchAcc.measure, List.length_append]
      omega
  | integrityError =>
      have : batch.dedup.length ≤ batch.length := (batch.dedup_sublist).length_le
      simp only [procBatch, BatchAcc.measure, List.length_append]
      omega
  | dataError =>
      have : batch.dedup.length ≤ batch.length := (batch.dedup_sublist).length_le
      simp only [procBatch, BatchAcc.measure, List.length_append]
      omega

theorem procBatches_measure (outs : ℕ → BatchOutcome) (cs : List (List ℕ)) :
    ∀ (idx : ℕ) (acc : BatchAcc),
    (∀ i ins, outs (idx + i) = .ok ins → ins ⊆ (cs.getD i []).toFinset) →
    (procBatches outs idx acc cs).measure ≤ acc.measure + cs.flatten.length := by
  induction cs with
  | nil =>
      intro idx acc _
      simp [procBatches, BatchAcc.measure]
  | cons c cs ih =>
      intro idx acc hval
      have hc : ∀ ins, outs idx = .ok ins → ins ⊆ c.toFinset := by
        intro ins h
        have := hval 0 ins (by simpa using h)
        simpa using this
      have hstep := procBatch_measure (outs idx) acc c hc
      have htail : ∀ i ins, outs (idx + 1 + i) = .ok ins →
          ins ⊆ (cs.getD i []).toFinset := by
        intro i ins h
        have := hval (i + 1) ins (by rw [show idx + (i + 1) = idx + 1 + i by omega]; exact h)
        simpa using this
      have := ih (idx + 1) (procBatch (outs idx) acc c) htail
      simp only [procBatches, List.flatten_cons, List.length_append]
      omega

theorem filter_mem_length_le (l m : List ℕ) (hnd : l.Nodup) :
    (l.filter (fun a => a ∈ m)).length ≤ m.length := by
  have h1 : (l.filter (fun a => a ∈ m)).Nodup := hnd.filter _
  have h2 : (l.filter (fun a => a ∈ m)).toFinset ⊆ m.toFinset := by
    intro x hx
    simp only [List.mem_toFinset, List.mem_filter, decide_eq_true_eq] at hx
    simpa [List.mem_toFinset] using hx.2
  calc (l.filter (fun a => a ∈ m)).length
      = (l.filter (fun a => a ∈ m)).toFinset.card :=
        (List.toFinset_card_of_nodup h1).symm
    _ ≤ m.toFinset.card := Finset.card_le_card h2
    _ ≤ m.length := m.toFinset_card_le

end Ingestion

/-- C5 (amended): for every input whose natural keys are pairwise
distinct, every batch size, and every database behaviour within the
collaborator contract (a batch insert returns keys from its own
batch), the returned summary satisfies
`created + conflictive + failed ≤ total`.  (With repeated natural
keys the bound can fail: the conflictive upsert counts every input
row whose key is in the conflictive set, so a key that was both
inserted and conflictive is double-counted — see the counterexample.) -/
theorem c5_bulk_totals_bound (assets : List ℕ) (bs : ℕ)
    (outs : ℕ → Ingestion.BatchOutcome) (ups : Ingestion.UpsertOutcome)
    (hnd : assets.Nodup)
    (hval : ∀ i ins, outs i = .ok ins →
      ins ⊆ ((Ingestion.chunks bs assets).getD i []).toFinset) :
    (Ingestion.create_assets_bulk assets bs outs ups).created +
        (Ingestion.create_assets_bulk assets bs outs ups).conflictive +
        ((Ingestion.create_assets_bulk assets bs outs ups).failed.getD 0) ≤
      (Ingestion.create_assets_bulk assets bs outs ups).total := by
  by_cases hempty : assets.length = 0
  · simp [Ingestion.create_assets_bulk, hempty]
  · by_cases hbs : bs = 0
    · subst hbs
      have hcs : Ingestion.chunks 0 assets = [] := by
        cases assets with
        | nil => rfl
        | cons a t => simp [Ingestion.chunks, Ingestion.chunksFuel]
      simp only [Ingestion.create_assets_bulk, hcs, Ingestion.procBatches]
      split_ifs <;> cases ups <;> simp
    · have hflat := Ingestion.chunks_flatten bs hbs assets
      have hloop := Ingestion.procBatches_measure outs (Ingestion.chunks bs assets) 0
        ⟨∅, [], []⟩ (by intro i ins h; exact hval i ins (by simpa using h))
      rw [hflat] at hloop
      set acc := Ingestion.procBatches outs 0 ⟨∅, [], []⟩ (Ingestion.chunks bs assets)
        with hacc
      have hmeas : acc.inserted.card + acc.conflictive.length +
          acc.failedIds.length ≤ assets.length := by
        simpa [Ingestion.BatchAcc.measure] using hloop
      have hfilter := Ingestion.filter_mem_length_le assets acc.conflictive hnd
      simp only [Ingestion.create_assets_bulk, if_neg hempty, ← hacc]
      by_cases hconf : acc.conflictive.isEmpty = true
      · rw [if_pos hconf]
        simp only [Option.getD_some]
        omega
      · rw [if_neg hconf]
        cases ups with
        | ok =>
            simp only [Option.getD_some]
            omega
        | integrityError =>
            simp only [Option.getD_some, List.length_append]
            omega
        | dataError =>
            simp only [Option.getD_some, List.length_append]
            omega

/-- C5 counterexample: the input `[5, 5]` (repeated natural key) with
batch size 1, where the database inserts key 5 in batch 0, reports it
conflicting in batch 1, and the conflictive upsert succeeds — every
call result within the collaborator contract (each batch returns only
its own keys).  The summary is created = 1, conflictive = 2, failed =
0, total = 2, so created + conflictive + failed = 3 > 2 = total: the
claimed bound fails because the upsert counts both input rows with key
5 while `created` also counts the key. -/
theorem c5_counterexample :
    ((Ingestion.create_assets_bulk [5, 5] 1
        (fun i => if i = 0 then Ingestion.BatchOutcome.ok {5} else .ok ∅)
        .ok).created = 1 ∧
      (Ingestion.create_assets_bulk [5, 5] 1
        (fun i => if i = 0 then Ingestion.BatchOutcome.ok {5} else .ok ∅)
        .ok).conflictive = 2 ∧
      (Ingestion.create_assets_bulk [5, 5] 1
        (fun i => if i = 0 then Ingestion.BatchOutcome.ok {5} else .ok ∅)
        .ok).failed = some 0 ∧
      (Ingestion.create_assets_bulk [5, 5] 1
        (fun i => if i = 0 then Ingestion.BatchOutcome.ok {5} else .ok ∅)
        .ok).total = 2) ∧
    (∀ i ins,
      (fun i => if i = 0 then Ingestion.BatchOutcome.ok {5} else .ok ∅) i =
        Ingestion.BatchOutcome.ok ins →
      ins ⊆ ((Ingestion.chunks 1 [5, 5]).getD i []).toFinset) := by
  constructor
  · refine ⟨?_, ?_, ?_, ?_⟩ <;> decide
  · intro i ins h
    simp only [] at h
    by_cases hi : i = 0
    · subst hi
      have h3 : ({5} : Finset ℕ) = ins := by simpa using h
      subst h3
      decide
    · have h3 : (∅ : Finset ℕ) = ins := by simpa [hi] using h
      subst h3
      simp

/-- Witness for C5: the amended bound instantiated at the distinct-key
input `[1, 2]` with batch size 2 and a database that inserts nothing. -/
theorem c5_bulk_totals_bound_witness :
    (Ingestion.create_assets_bulk [1, 2] 2
        (fun _ => Ingestion.BatchOutcome.ok ∅) .ok).created +
      (Ingestion.create_assets_bulk [1, 2] 2
        (fun _ => Ingestion.BatchOutcome.ok ∅) .ok).conflictive +
      ((Ingestion.create_assets_bulk [1, 2] 2
        (fun _ => Ingestion.BatchOutcome.ok ∅) .ok).failed.getD 0) ≤
    (Ingestion.create_assets_bulk [1, 2] 2
        (fun _ => Ingestion.BatchOutcome.ok ∅) .ok).total :=
  c5_bulk_totals_bound [1, 2] 2 (fun _ => Ingestion.BatchOutcome.ok ∅) .ok
    (by decide)
    (by
      intro i ins h
      simp only [Ingestion.BatchOutcome.ok.injEq] at h
      subst h
      simp)

namespace ReportManager

theorem mem_addFile_self (l : List String) (id : String) : id ∈ addFile l id := by
  unfold addFile
  split
  · assumption
  · exact List.mem_cons_self id l

theorem mem_addFile_iff (l : List String) (i id : String) :
    id ∈ addFile l i ↔ id = i ∨ id ∈ l := by
  unfold addFile
  split
  · rename_i hmem
    constructor
    · exact Or.inr
    · rintro (rfl | h)
      · exact hmem
      · exact h
  · exact List.mem_cons

end ReportManager

/-- C2 counterexample: from a store where task "t" has exactly its
pending marker, running only the FIRST file operation of the complete
transition (the source writes the completed artifact before unlinking
the pending marker) leaves both the pending marker and the completed
artifact in place: the at-most-one-file invariant is violated at the
transition's intermediate point, because the transition is
create-new-then-delete-old, not delete-old-then-create-new. -/
theorem c2_counterexample :
    ReportManager.getReportStatus ⟨["t"], [], []⟩ "t" =
        some ReportManager.ReportStatus.pending ∧
    ReportManager.atMostOneMarker
        (ReportManager.applyFileOps ⟨["t"], [], []⟩
          ((ReportManager.markCompletedOps "t").take 1)) "t" = false := by
  constructor <;> decide

/-- C2 (amended): each terminal transition creates the new record
first and only then deletes the pending marker, so both files briefly
coexist; nevertheless a reader calling `get_report_status` at any
point during either transition (any prefix of its two file
operations) observes either the pre-transition status or the
post-transition status, never any third state — the reader checks
completed, then pending, then failed. -/
theorem c2_transition_reader_sees_old_or_new
    (s : ReportManager.Store) (id : String) (n : ℕ) :
    (ReportManager.getReportStatus
        (ReportManager.applyFileOps s
          ((ReportManager.markCompletedOps id).take n)) id =
        ReportManager.getReportStatus s id ∨
      ReportManager.getReportStatus
        (ReportManager.applyFileOps s
          ((ReportManager.markCompletedOps id).take n)) id =
        ReportManager.getReportStatus
          (ReportManager.applyFileOps s (ReportManager.markCompletedOps id)) id) ∧
    (ReportManager.getReportStatus
        (ReportManager.applyFileOps s
          ((ReportManager.markFailedOps id).take n)) id =
        ReportManager.getReportStatus s id ∨
      ReportManager.getReportStatus
        (ReportManager.applyFileOps s
          ((ReportManager.markFailedOps id).take n)) id =
        ReportManager.getReportStatus
          (ReportManager.applyFileOps s (ReportManager.markFailedOps id)) id) := by
  match n with
  | 0 => exact ⟨Or.inl rfl, Or.inl rfl⟩
  | (m + 2) =>
      constructor
      · right
        rw [List.take_of_length_le (by simp [ReportManager.markCompletedOps])]
      · right
        rw [List.take_of_length_le (by simp [ReportManager.markFailedOps])]
  | 1 =>
      constructor
      · -- complete: after writing the artifact the reader already sees
        -- the new status (completed wins the priority check)
        right
        simp [ReportManager.markCompletedOps, ReportManager.applyFileOps,
          ReportManager.applyFileOp, ReportManager.getReportStatus,
          ReportManager.mem_addFile_self]
      · -- fail: with a completed artifact or pending marker present the
        -- reader still sees the old status; otherwise it sees failed,
        -- which is the new status
        by_cases hc : id ∈ s.completedFiles
        · left
          simp [ReportManager.markFailedOps, ReportManager.applyFileOps,
            ReportManager.applyFileOp, ReportManager.getReportStatus, hc]
        · by_cases hp : id ∈ s.pendingFiles
          · left
            simp [ReportManager.markFailedOps, ReportManager.applyFileOps,
              ReportManager.applyFileOp, ReportManager.getReportStatus, hc, hp]
          · right
            have hp2 : id ∉ s.pendingFiles.erase id :=
              fun h => hp (List.mem_of_mem_erase h)
            simp [ReportManager.markFailedOps, ReportManager.applyFileOps,
              ReportManager.applyFileOp, ReportManager.getReportStatus, hc, hp,
              hp2, ReportManager.mem_addFile_self]

/-- C3: under sequential calls, whenever the number of pending tasks
has reached the admission ceiling (`MAX_CONCURRENT_REPORTS = 1`), a
report submission is rejected with the denial reason that echoes the
current pending count, and the store is untouched; whenever the
pending count is strictly below the ceiling, submission succeeds and
the fresh task id is pending afterwards. -/
theorem c3_admission_gate (s : ReportManager.Store) (id : String)
    (hfresh : id ∉ s.completedFiles ∧ id ∉ s.pendingFiles ∧ id ∉ s.failedFiles) :
    (ReportManager.MAX_CONCURRENT_REPORTS ≤ ReportManager.countPendingReports s →
      (ReportManager.submitReport s id).1 =
        ReportManager.SubmitResult.denied
          ("Ya hay " ++ toString (ReportManager.countPendingReports s) ++
            " reporte(s) generÃ¡ndose. Por favor intente en unos minutos.") ∧
      (ReportManager.submitReport s id).2 = s) ∧
    (ReportManager.countPendingReports s < ReportManager.MAX_CONCURRENT_REPORTS →
      (ReportManager.submitReport s id).1 =
        ReportManager.SubmitResult.accepted id ∧
      ReportManager.getReportStatus (ReportManager.submitReport s id).2 id =
        some ReportManager.ReportStatus.pending) := by
  constructor
  · intro hge
    have hc : ReportManager.canStartNewReport s =
        (false, some ("Ya hay " ++ toString (ReportManager.countPendingReports s) ++
          " reporte(s) generÃ¡ndose. Por favor intente en unos minutos.")) := by
      simp [ReportManager.canStartNewReport, if_pos hge]
    constructor
    · simp [ReportManager.submitReport, hc]
    · simp [ReportManager.submitReport, hc]
  · intro hlt
    have hnot : ¬ ReportManager.MAX_CONCURRENT_REPORTS ≤
        ReportManager.countPendingReports s := Nat.not_le.mpr hlt
    have hc : ReportManager.canStartNewReport s = (true, none) := by
      simp [ReportManager.canStartNewReport, if_neg hnot]
    constructor
    · simp [ReportManager.submitReport, hc]
    · simp [ReportManager.submitReport, hc, ReportManager.createPendingOps,
        ReportManager.applyFileOps, ReportManager.applyFileOp,
        ReportManager.getReportStatus, ReportManager.mem_addFile_self,
        hfresh.1]

/-- Witness for C3: the gate applied to a store with one pending task
(denied, reason echoing the count 1) and to the empty store (accepted,
task pending afterwards). -/
theorem c3_admission_gate_witness :
    ((ReportManager.submitReport ⟨["a"], [], []⟩ "t").1 =
        ReportManager.SubmitResult.denied
          ("Ya hay " ++ toString (ReportManager.countPendingReports ⟨["a"], [], []⟩) ++
            " reporte(s) generÃ¡ndose. Por favor intente en unos minutos.") ∧
      (ReportManager.submitReport ⟨["a"], [], []⟩ "t").2 = ⟨["a"], [], []⟩) ∧
    ((ReportManager.submitReport ⟨[], [], []⟩ "t").1 =
        ReportManager.SubmitResult.accepted "t" ∧
      ReportManager.getReportStatus (ReportManager.submitReport ⟨[], [], []⟩ "t").2 "t" =
        some ReportManager.ReportStatus.pending) :=
  ⟨(c3_admission_gate ⟨["a"], [], []⟩ "t" (by decide)).1 (by decide),
    (c3_admission_gate ⟨[], [], []⟩ "t" (by decide)).2 (by decide)⟩

namespace ReportManager

theorem count_addFile_ne (l : List String) (i id : String) (h : i ≠ id) :
    (addFile l i).count id = l.count id := by
  unfold addFile
  split
  · rfl
  · rw [List.count_cons]
    simp [h]

theorem count_addFile_self_of_zero (l : List String) (id : String)
    (h : l.count id = 0) : (addFile l id).count id = 1 := by
  have hnot : id ∉ l := List.count_eq_zero.mp h
  unfold addFile
  rw [if_neg hnot, List.count_cons_self, h]

theorem filesCount_applyStoreOp_untouched (s : Store) (op : StoreOp) (id : String)
    (h : opTouches op id = false) :
    filesCount (applyStoreOp s op) id = filesCount s id := by
  cases op with
  | submit i =>
      have hne : i ≠ id := by simpa [opTouches] using h
      simp [applyStoreOp, applyFileOps, applyFileOp, createPendingOps,
        filesCount, count_addFile_ne _ _ _ hne]
  | complete i =>
      have hne : i ≠ id := by simpa [opTouches] using h
      simp [applyStoreOp, applyFileOps, applyFileOp, markCompletedOps,
        filesCount, count_addFile_ne _ _ _ hne, List.count_erase_of_ne hne.symm]
  | fail i =>
      have hne : i ≠ id := by simpa [opTouches] using h
      simp [applyStoreOp, applyFileOps, applyFileOp, markFailedOps,
        filesCount, count_addFile_ne _ _ _ hne, List.count_erase_of_ne hne.symm]
  | sweep del =>
      simp only [opTouches, Bool.or_eq_false_iff] at h
      obtain ⟨⟨hp, hc⟩, hf⟩ := h
      have h1 : (s.pendingFiles.filter (fun t => !del t .pending)).count id =
          s.pendingFiles.count id := List.count_filter (by simp [hp])
      have h2 : (s.completedFiles.filter (fun t => !del t .completed)).count id =
          s.completedFiles.count id := List.count_filter (by simp [hc])
      have h3 : (s.failedFiles.filter (fun t => !del t .failed)).count id =
          s.failedFiles.count id := List.count_filter (by simp [hf])
      simp [applyStoreOp, filesCount, h1, h2, h3]

theorem filesCount_runStoreOps_untouched (ops : List StoreOp) (s : Store)
    (id : String) (h : ∀ op ∈ ops, opTouches op id = false) :
    filesCount (runStoreOps s ops) id = filesCount s id := by
  induction ops generalizing s with
  | nil => rfl
  | cons op ops ih =>
      have hop := h op (List.mem_cons_self op ops)
      have hops : ∀ x ∈ ops, opTouches x id = false :=
        fun x hx => h x (List.mem_cons_of_mem op hx)
      calc filesCount (runStoreOps (applyStoreOp s op) ops) id
          = filesCount (applyStoreOp s op) id := ih (applyStoreOp s op) hops
        _ = filesCount s id := filesCount_applyStoreOp_untouched s op id hop

theorem getReportStatus_of_counts (s : Store) (id : String) :
    getReportStatus s id =
      (if 0 < s.completedFiles.count id then some ReportStatus.completed
       else if 0 < s.pendingFiles.count id then some ReportStatus.pending
       else if 0 < s.failedFiles.count id then some ReportStatus.failed
       else none) := by
  simp [getReportStatus, List.count_pos_iff]

theorem filesCount_submit_fresh (s : Store) (id : String)
    (h : filesCount s id = (0, 0, 0)) :
    filesCount (applyStoreOp s (.submit id)) id = (1, 0, 0) := by
  have hp : s.pendingFiles.count id = 0 := congrArg (·.1) h
  have hc : s.completedFiles.count id = 0 := congrArg (·.2.1) h
  have hf : s.failedFiles.count id = 0 := congrArg (·.2.2) h
  simp [applyStoreOp, applyFileOps, applyFileOp, createPendingOps, filesCount,
    count_addFile_self_of_zero _ _ hp, hc, hf]

theorem filesCount_complete_of_pending (s : Store) (id : String)
    (h : filesCount s id = (1, 0, 0)) :
    filesCount (applyStoreOp s (.complete id)) id = (0, 1, 0) := by
  have hp : s.pendingFiles.count id = 1 := congrArg (·.1) h
  have hc : s.completedFiles.count id = 0 := congrArg (·.2.1) h
  have hf : s.failedFiles.count id = 0 := congrArg (·.2.2) h
  simp [applyStoreOp, applyFileOps, applyFileOp, markCompletedOps, filesCount,
    count_addFile_self_of_zero _ _ hc, List.count_erase_self, hp, hf]

theorem filesCount_fail_of_pending (s : Store) (id : String)
    (h : filesCount s id = (1, 0, 0)) :
    filesCount (applyStoreOp s (.fail id)) id = (0, 0, 1) := by
  have hp : s.pendingFiles.count id = 1 := congrArg (·.1) h
  have hc : s.completedFiles.count id = 0 := congrArg (·.2.1) h
  have hf : s.failedFiles.count id = 0 := congrArg (·.2.2) h
  simp [applyStoreOp, applyFileOps, applyFileOp, markFailedOps, filesCount,
    count_addFile_self_of_zero _ _ hf, List.count_erase_self, hp, hc]

theorem getReportStatus_of_filesCount (s : Store) (id : String)
    (p c f : ℕ) (h : filesCount s id = (p, c, f)) :
    getReportStatus s id =
      (if 0 < c then some ReportStatus.completed
       else if 0 < p then some ReportStatus.pending
       else if 0 < f then some ReportStatus.failed
       else none) := by
  have hp : s.pendingFiles.count id = p := congrArg (·.1) h
  have hc : s.completedFiles.count id = c := congrArg (·.2.1) h
  have hf : s.failedFiles.count id = f := congrArg (·.2.2) h
  rw [getReportStatus_of_counts, hp, hc, hf]

end ReportManager

/-- C4: for every task id, under sequential store operations: before
the id's submit the status is None throughout; from the submit until
the id's single terminal transition the status is pending throughout;
and once the terminal transition (complete, resp. fail) has run, the
status is permanently completed (resp. failed) under every further
operation that does not address the id — that is, everything except a
sweep deleting the id's file (the claimed exception) and a second
submit/complete/fail on the same id (ruled out by the claimed single
invocation of exactly one of complete/fail). -/
theorem c4_status_lifecycle (s0 : ReportManager.Store) (id : String)
    (t1 t2 t3 : List ReportManager.StoreOp) (isComplete : Bool)
    (h0 : ReportManager.filesCount s0 id = (0, 0, 0))
    (h1 : ∀ op ∈ t1, ReportManager.opTouches op id = false)
    (h2 : ∀ op ∈ t2, ReportManager.opTouches op id = false)
    (h3 : ∀ op ∈ t3, ReportManager.opTouches op id = false) :
    (∀ n, ReportManager.getReportStatus
        (ReportManager.runStoreOps s0 (t1.take n)) id = none) ∧
    (∀ n, ReportManager.getReportStatus
        (ReportManager.runStoreOps
          (ReportManager.applyStoreOp (ReportManager.runStoreOps s0 t1)
            (.submit id)) (t2.take n)) id =
        some ReportManager.ReportStatus.pending) ∧
    (∀ n, ReportManager.getReportStatus
        (ReportManager.runStoreOps
          (ReportManager.applyStoreOp
            (ReportManager.runStoreOps
              (ReportManager.applyStoreOp (ReportManager.runStoreOps s0 t1)
                (.submit id)) t2)
            (if isComplete then ReportManager.StoreOp.complete id
             else ReportManager.StoreOp.fail id))
          (t3.take n)) id =
        some (if isComplete then ReportManager.ReportStatus.completed
              else ReportManager.ReportStatus.failed)) := by
  have htake : ∀ (t : List ReportManager.StoreOp),
      (∀ op ∈ t, ReportManager.opTouches op id = false) →
      ∀ n, ∀ op ∈ t.take n, ReportManager.opTouches op id = false :=
    fun t ht n op hop => ht op (List.take_subset n t hop)
  have e1 : ReportManager.filesCount (ReportManager.runStoreOps s0 t1) id =
      (0, 0, 0) :=
    (ReportManager.filesCount_runStoreOps_untouched t1 s0 id h1).trans h0
  have e2 : ReportManager.filesCount
      (ReportManager.applyStoreOp (ReportManager.runStoreOps s0 t1)
        (.submit id)) id = (1, 0, 0) :=
    ReportManager.filesCount_submit_fresh _ _ e1
  have e3 : ReportManager.filesCount
      (ReportManager.runStoreOps
        (ReportManager.applyStoreOp (ReportManager.runStoreOps s0 t1)
          (.submit id)) t2) id = (1, 0, 0) :=
    (ReportManager.filesCount_runStoreOps_untouched t2 _ id h2).trans e2
  refine ⟨?_, ?_, ?_⟩
  · intro n
    have k := (ReportManager.filesCount_runStoreOps_untouched (t1.take n) s0 id
      (htake t1 h1 n)).trans h0
    rw [ReportManager.getReportStatus_of_filesCount _ _ _ _ _ k]
    simp
  · intro n
    have k := (ReportManager.filesCount_runStoreOps_untouched (t2.take n) _ id
      (htake t2 h2 n)).trans e2
    rw [ReportManager.getReportStatus_of_filesCount _ _ _ _ _ k]
    simp
  · intro n
    cases isComplete with
    | true =>
        have e4 := ReportManager.filesCount_complete_of_pending _ _ e3
        have k := (ReportManager.filesCount_runStoreOps_untouched (t3.take n) _ id
          (htake t3 h3 n)).trans (by simpa using e4)
        rw [if_pos rfl, ReportManager.getReportStatus_of_filesCount _ _ _ _ _ k]
        simp
    | false =>
        have e4 := ReportManager.filesCount_fail_of_pending _ _ e3
        have k := (ReportManager.filesCount_runStoreOps_untouched (t3.take n) _ id
          (htake t3 h3 n)).trans (by simpa using e4)
        rw [if_neg (by simp), ReportManager.getReportStatus_of_filesCount _ _ _ _ _ k]
        simp

/-- Witness for C4: the lifecycle on the empty store with empty
surrounding operation lists and the complete transition. -/
theorem c4_status_lifecycle_witness :
    ReportManager.getReportStatus
        (ReportManager.runStoreOps ⟨[], [], []⟩
          (([] : List ReportManager.StoreOp).take 0)) "t" = none ∧
    ReportManager.getReportStatus
        (ReportManager.runStoreOps
          (ReportManager.applyStoreOp (ReportManager.runStoreOps ⟨[], [], []⟩ [])
            (.submit "t")) (([] : List ReportManager.StoreOp).take 0)) "t" =
      some ReportManager.ReportStatus.pending :=
  ⟨(c4_status_lifecycle ⟨[], [], []⟩ "t" [] [] [] true (by decide)
      (by simp) (by simp) (by simp)).1 0,
    ((c4_status_lifecycle ⟨[], [], []⟩ "t" [] [] [] true (by decide)
      (by simp) (by simp) (by simp)).2).1 0⟩

namespace PhotoUpload

theorem plan_mem_tables (tb : Tables) (nameOf : ℕ → String) (ids : List ℕ) :
    ∀ it ∈ (resolvePhase tb nameOf ids).1,
      it.idInterno ∈ tb.assetKeys ∨ it.idInterno ∈ tb.conflictiveKeys := by
  induction ids with
  | nil => simp [resolvePhase]
  | cons id rest ih =>
      intro it hit
      by_cases ha : id ∈ tb.assetKeys
      · rw [resolvePhase, if_pos ha] at hit
        rcases List.mem_cons.mp hit with h | h
        · subst h
          exact Or.inl ha
        · exact ih it h
      · by_cases hb : id ∈ tb.conflictiveKeys
        · rw [resolvePhase, if_neg ha, if_pos hb] at hit
          rcases List.mem_cons.mp hit with h | h
          · subst h
            exact Or.inr hb
          · exact ih it h
        · rw [resolvePhase, if_neg ha, if_neg hb] at hit
          exact ih it hit

theorem resolve_res_failed (tb : Tables) (nameOf : ℕ → String) (ids : List ℕ) :
    ∀ r ∈ (resolvePhase tb nameOf ids).2.2, r.success = false := by
  induction ids with
  | nil => simp [resolvePhase]
  | cons id rest ih =>
      intro r hr
      by_cases ha : id ∈ tb.assetKeys
      · rw [resolvePhase, if_pos ha] at hr
        exact ih r hr
      · by_cases hb : id ∈ tb.conflictiveKeys
        · rw [resolvePhase, if_neg ha, if_pos hb] at hr
          exact ih r hr
        · rw [resolvePhase, if_neg ha, if_neg hb] at hr
          rcases List.mem_cons.mp hr with h | h
          · subst h
            rfl
          · exact ih r h

theorem resolve_nf_filter (tb : Tables) (nameOf : ℕ → String) (x : ℕ)
    (hx1 : x ∉ tb.assetKeys) (hx2 : x ∉ tb.conflictiveKeys) (ids : List ℕ) :
    ((resolvePhase tb nameOf ids).2.2).filter (fun r => r.idInterno == x) =
      List.replicate (ids.count x)
        ⟨false, x, none, some assetNotFoundMsg⟩ := by
  induction ids with
  | nil => simp [resolvePhase]
  | cons id rest ih =>
      by_cases ha : id ∈ tb.assetKeys
      · have hne : x ≠ id := fun h => hx1 (h ▸ ha)
        have hne2 : id ≠ x := fun h => hne h.symm
        rw [resolvePhase, if_pos ha]
        simp only [List.count_cons]
        rw [ih]
        simp [hne, hne2]
      · by_cases hb : id ∈ tb.conflictiveKeys
        · have hne : x ≠ id := fun h => hx2 (h ▸ hb)
          have hne2 : id ≠ x := fun h => hne h.symm
          rw [resolvePhase, if_neg ha, if_pos hb]
          simp only [List.count_cons]
          rw [ih]
          simp [hne, hne2]
        · rw [resolvePhase, if_neg ha, if_neg hb]
          by_cases hx : id = x
          · subst hx
            simp only [List.filter_cons, List.count_cons]
            simp only [beq_self_eq_true, if_true]
            rw [ih]
            simp [List.replicate_succ]
          · have hxid : ¬ x = id := fun h => hx h.symm
            simp only [List.filter_cons, List.count_cons]
            have hb1 : (id == x) = false := by simp [hx]
            simp only [hb1, Bool.false_eq_true, if_false]
            rw [ih]
            simp [hxid]

theorem fsPhase_succ_subset (fsOut : ℕ → Option String) (plan : List PlanItem) :
    ∀ it ∈ (fsPhase fsOut plan).1, it ∈ plan := by
  induction plan with
  | nil => simp [fsPhase]
  | cons p rest ih =>
      intro it hit
      rw [fsPhase] at hit
      cases hfs : fsOut p.idInterno with
      | none =>
          rw [hfs] at hit
          rcases List.mem_cons.mp hit with h | h
          · subst h
            exact List.mem_cons_self _ _
          · exact List.mem_cons_of_mem _ (ih it h)
      | some msg =>
          rw [hfs] at hit
          exact List.mem_cons_of_mem _ (ih it hit)

theorem fsPhase_res_ids (fsOut : ℕ → Option String) (plan : List PlanItem) :
    ∀ r ∈ (fsPhase fsOut plan).2.2,
      r.idInterno ∈ plan.map (fun it => it.idInterno) ∧ r.success = false := by
  induction plan with
  | nil => simp [fsPhase]
  | cons p rest ih =>
      intro r hr
      rw [fsPhase] at hr
      cases hfs : fsOut p.idInterno with
      | none =>
          rw [hfs] at hr
          have := ih r hr
          exact ⟨List.mem_cons_of_mem _ this.1, this.2⟩
      | some msg =>
          rw [hfs] at hr
          rcases List.mem_cons.mp hr with h | h
          · subst h
            exact ⟨List.mem_cons_self _ _, rfl⟩
          · have := ih r h
            exact ⟨List.mem_cons_of_mem _ this.1, this.2⟩

theorem phase3Run_stmts_subset (dbReg dbConf : Except Unit (ℕ → Bool))
    (regular confl uploadIds : List ℕ) :
    ∀ i ∈ (phase3Run dbReg dbConf regular confl uploadIds).2.2,
      i ∈ regular ∨ i ∈ confl := by
  intro i hi
  by_cases h1 : uploadIds.isEmpty
  · simp [phase3Run, h1] at hi
  · by_cases h2 : regular.isEmpty
    · by_cases h3 : confl.isEmpty
      · simp [phase3Run, h1, h2, h3] at hi
      · cases dbConf with
        | error e =>
            simp [phase3Run, h1, h2, h3] at hi
            exact Or.inr hi
        | ok rowC =>
            simp [phase3Run, h1, h2, h3] at hi
            exact Or.inr hi
    · cases dbReg with
      | error e =>
          simp [phase3Run, h1, h2] at hi
          exact Or.inl hi
      | ok rowR =>
          by_cases h4 : confl.isEmpty
          · simp [phase3Run, h1, h2, h4] at hi
            exact Or.inl hi
          · cases dbConf with
            | error e =>
                simp [phase3Run, h1, h2, h4, List.mem_append] at hi
                exact hi
            | ok rowC =>
                simp [phase3Run, h1, h2, h4, List.mem_append] at hi
                exact hi

theorem phase3Run_threw_sdb_nil (dbReg dbConf : Except Unit (ℕ → Bool))
    (regular confl uploadIds : List ℕ)
    (h : (phase3Run dbReg dbConf regular confl uploadIds).2.1 = true) :
    (phase3Run dbReg dbConf regular confl uploadIds).1 = [] := by
  by_cases h1 : uploadIds.isEmpty
  · simp [phase3Run, h1]
  · by_cases h2 : regular.isEmpty
    · by_cases h3 : confl.isEmpty
      · simp [phase3Run, h1, h2, h3]
      · cases dbConf with
        | error e => simp [phase3Run, h1, h2, h3]
        | ok rowC => simp [phase3Run, h1, h2, h3] at h
    · cases dbReg with
      | error e => simp [phase3Run, h1, h2]
      | ok rowR =>
          by_cases h4 : confl.isEmpty
          · simp [phase3Run, h1, h2, h4] at h
          · cases dbConf with
            | error e => simp [phase3Run, h1, h2, h4]
            | ok rowC => simp [phase3Run, h1, h2, h4] at h

theorem p4_filter_nil (succUp : List PlanItem) (sdb : List ℕ) (x : ℕ)
    (h : ∀ it ∈ succUp, it.idInterno ≠ x) :
    ((succUp.map (fun it =>
      if it.idInterno ∈ sdb then
        ({ success := true, idInterno := it.idInterno,
           photoName := some it.photoName, errorMessage := none } :
          PhotoUploadResponse)
      else
        { success := false, idInterno := it.idInterno, photoName := none,
          errorMessage := some dbInconsistencyMsg })).filter
      (fun r => r.idInterno == x)) = [] := by
  rw [List.filter_eq_nil_iff]
  intro r hr hbeq
  obtain ⟨it, hit, rfl⟩ := List.mem_map.mp hr
  have hne := h it hit
  by_cases hmem : it.idInterno ∈ sdb
  · rw [if_pos hmem] at hbeq
    exact hne (by simpa using hbeq)
  · rw [if_neg hmem] at hbeq
    exact hne (by simpa using hbeq)

end PhotoUpload

/-- C7: for every reconciliation call containing an id that resolves
to neither the primary nor the conflictive asset table (appearing once
in the request), the output holds exactly one failed result for that
id, carrying the not-found reason, and the id is excluded from every
later phase: it appears in no filesystem save and in no database
update statement. -/
theorem c7_notfound_isolated (tb : PhotoUpload.Tables) (nameOf : ℕ → String)
    (fsOut : ℕ → Option String) (dbReg dbConf : Except Unit (ℕ → Bool))
    (ids : List ℕ) (x : ℕ)
    (hx1 : x ∉ tb.assetKeys) (hx2 : x ∉ tb.conflictiveKeys)
    (hcount : ids.count x = 1) :
    (PhotoUpload.bulk_photo_upload tb nameOf fsOut dbReg dbConf ids).results.filter
        (fun r => r.idInterno == x) =
      [⟨false, x, none, some PhotoUpload.assetNotFoundMsg⟩] ∧
    x ∉ (PhotoUpload.bulk_photo_upload tb nameOf fsOut dbReg dbConf ids).fsSaveIds ∧
    x ∉ (PhotoUpload.bulk_photo_upload tb nameOf fsOut dbReg dbConf ids).dbStatementIds := by
  have hplanx : x ∉ ((PhotoUpload.resolvePhase tb nameOf ids).1.map
      (fun it => it.idInterno)) := by
    intro hmem
    obtain ⟨it, hit, hid⟩ := List.mem_map.mp hmem
    rcases PhotoUpload.plan_mem_tables tb nameOf ids it hit with h | h
    · exact hx1 (hid ▸ h)
    · exact hx2 (hid ▸ h)
  have hsucc : ∀ it ∈ (PhotoUpload.fsPhase fsOut
      (PhotoUpload.resolvePhase tb nameOf ids).1).1,
      it ∈ (PhotoUpload.resolvePhase tb nameOf ids).1 :=
    PhotoUpload.fsPhase_succ_subset fsOut _
  have hsuccx : ∀ it ∈ (PhotoUpload.fsPhase fsOut
      (PhotoUpload.resolvePhase tb nameOf ids).1).1, it.idInterno ≠ x := by
    intro it hit h
    exact hplanx (List.mem_map.mpr ⟨it, hsucc it hit, h⟩)
  refine ⟨?_, ?_, ?_⟩
  · simp only [PhotoUpload.bulk_photo_upload, List.filter_append]
    have hnf := PhotoUpload.resolve_nf_filter tb nameOf x hx1 hx2 ids
    rw [hnf, hcount]
    have hfs : ((PhotoUpload.fsPhase fsOut
        (PhotoUpload.resolvePhase tb nameOf ids).1).2.2).filter
        (fun r => r.idInterno == x) = [] := by
      rw [List.filter_eq_nil_iff]
      intro r hr hbeq
      have hid := (PhotoUpload.fsPhase_res_ids fsOut _ r hr).1
      have : r.idInterno = x := by simpa using hbeq
      exact hplanx (this ▸ hid)
    rw [hfs, PhotoUpload.p4_filter_nil _ _ x hsuccx]
    simp
  · simp only [PhotoUpload.bulk_photo_upload]
    exact hplanx
  · simp only [PhotoUpload.bulk_photo_upload]
    intro hmem
    rcases PhotoUpload.phase3Run_stmts_subset dbReg dbConf _ _ _ x hmem with h | h
    · obtain ⟨it, hit, hid⟩ := List.mem_map.mp h
      exact hsuccx it (List.mem_of_mem_filter hit) hid
    · obtain ⟨it, hit, hid⟩ := List.mem_map.mp h
      exact hsuccx it (List.mem_of_mem_filter hit) hid

/-- Witness for C7: a call whose id 9 is in neither table, alongside a
resolvable id, with succeeding filesystem and database. -/
theorem c7_notfound_isolated_witness :
    (PhotoUpload.bulk_photo_upload ⟨[1], [2]⟩ (fun _ => "p") (fun _ => none)
        (Except.ok (fun _ => true)) (Except.ok (fun _ => true))
        [1, 9]).results.filter (fun r => r.idInterno == 9) =
      [⟨false, 9, none, some PhotoUpload.assetNotFoundMsg⟩] ∧
    9 ∉ (PhotoUpload.bulk_photo_upload ⟨[1], [2]⟩ (fun _ => "p") (fun _ => none)
        (Except.ok (fun _ => true)) (Except.ok (fun _ => true)) [1, 9]).fsSaveIds ∧
    9 ∉ (PhotoUpload.bulk_photo_upload ⟨[1], [2]⟩ (fun _ => "p") (fun _ => none)
        (Except.ok (fun _ => true)) (Except.ok (fun _ => true)) [1, 9]).dbStatementIds :=
  c7_notfound_isolated ⟨[1], [2]⟩ (fun _ => "p") (fun _ => none)
    (Except.ok (fun _ => true)) (Except.ok (fun _ => true)) [1, 9] 9
    (by decide) (by decide) (by decide)

/-- C1 (amended): when phase 3's database update throws for either
table, item X (which passed phase 2) is indeed reported as the
inconsistent filesystem-succeeded/database-failed failure — but the
other table's items are NOT preserved: the two tables' updates share
one `try` block and one transaction, so every item that passed phase 2,
in both tables, is reported with that same inconsistency failure and no
result in the whole call is a success (database successes recorded
before the exception are discarded and rolled back). -/
theorem c1_db_throw_fails_both_tables (tb : PhotoUpload.Tables)
    (nameOf : ℕ → String) (fsOut : ℕ → Option String)
    (dbReg dbConf : Except Unit (ℕ → Bool)) (ids : List ℕ)
    (hthrew : (PhotoUpload.bulk_photo_upload tb nameOf fsOut dbReg dbConf
      ids).phase3Threw = true) :
    (∀ i ∈ (PhotoUpload.bulk_photo_upload tb nameOf fsOut dbReg dbConf
        ids).phase2SucceededIds,
      (⟨false, i, none, some PhotoUpload.dbInconsistencyMsg⟩ :
          PhotoUpload.PhotoUploadResponse) ∈
        (PhotoUpload.bulk_photo_upload tb nameOf fsOut dbReg dbConf ids).results) ∧
    (∀ r ∈ (PhotoUpload.bulk_photo_upload tb nameOf fsOut dbReg dbConf
        ids).results, r.success = false) := by
  simp only [PhotoUpload.bulk_photo_upload] at hthrew ⊢
  have hsdb := PhotoUpload.phase3Run_threw_sdb_nil dbReg dbConf _ _ _ hthrew
  constructor
  · intro i hi
    obtain ⟨it, hit, rfl⟩ := List.mem_map.mp hi
    refine List.mem_append_right _ ?_
    refine List.mem_map.mpr ⟨it, hit, ?_⟩
    rw [hsdb]
    simp
  · intro r hr
    rcases List.mem_append.mp hr with h | h
    · rcases List.mem_append.mp h with h2 | h2
      · exact PhotoUpload.resolve_res_failed tb nameOf ids r h2
      · exact (PhotoUpload.fsPhase_res_ids fsOut _ r h2).2
    · obtain ⟨it, hit, rfl⟩ := List.mem_map.mp h
      rw [hsdb]
      simp

/-- Witness for C1 (amended): in the two-item call where the regular
update succeeded and the conflictive update threw, the regular item 1
is reported with the inconsistency failure. -/
theorem c1_db_throw_fails_both_tables_witness :
    (⟨false, 1, none, some PhotoUpload.dbInconsistencyMsg⟩ :
        PhotoUpload.PhotoUploadResponse) ∈
      (PhotoUpload.bulk_photo_upload ⟨[1], [2]⟩ (fun _ => "p") (fun _ => none)
        (Except.ok (fun _ => true)) (Except.error ()) [1, 2]).results :=
  (c1_db_throw_fails_both_tables ⟨[1], [2]⟩ (fun _ => "p") (fun _ => none)
    (Except.ok (fun _ => true)) (Except.error ()) [1, 2] (by decide)).1 1
    (by decide)

/-- C1 counterexample: asset table holds id 1, conflictive table holds
id 2, both photos save to the filesystem, the regular-table update
statement succeeds for id 1 (`_bulk_update_asset_photos` returns [1]),
and the conflictive-table update then throws.  Item 2 passed phase 2
and its table's update threw, yet item 1 — the OTHER table's item whose
phase-2 save and phase-3 update statement both succeeded — gets a
failure result with the inconsistency message instead of the success
the claim promises. -/
theorem c1_counterexample :
    (PhotoUpload.bulk_photo_upload ⟨[1], [2]⟩ (fun _ => "p") (fun _ => none)
        (Except.ok (fun _ => true)) (Except.error ())
        [1, 2]).phase2SucceededIds = [1, 2] ∧
    (PhotoUpload.bulk_photo_upload ⟨[1], [2]⟩ (fun _ => "p") (fun _ => none)
        (Except.ok (fun _ => true)) (Except.error ())
        [1, 2]).phase3Threw = true ∧
    PhotoUpload.bulkUpdateAssetPhotos (fun _ => true) [1] = [1] ∧
    (PhotoUpload.bulk_photo_upload ⟨[1], [2]⟩ (fun _ => "p") (fun _ => none)
        (Except.ok (fun _ => true)) (Except.error ())
        [1, 2]).results =
      [⟨false, 1, none, some PhotoUpload.dbInconsistencyMsg⟩,
        ⟨false, 2, none, some PhotoUpload.dbInconsistencyMsg⟩] := by
  refine ⟨?_, ?_, ?_, ?_⟩ <;> decide

/-- C6: for both background orchestrators (tabular and grouped
installers) and every behaviour of the lookups, the row fetch, the
generator and the artifact persistence, no exception escapes: whenever
the `try` body (steps 2–5) raises `e`, the run's terminal store
transition is `mark_report_failed` with the internal-error message
built from `e`; and when the body finishes normally, the run performs
exactly the body's terminal transition. -/
theorem c6_orchestrator_catches_all {α : Type} (elementFilter : Bool)
    (contractName elementName : String)
    (genT : List α → Except BackgroundReports.Exn BackgroundReports.Buffer)
    (genI : List α →
      Except BackgroundReports.Exn (Option BackgroundReports.Buffer))
    (o : BackgroundReports.Oracle α) :
    (∀ e, BackgroundReports.orchTryTabular elementFilter contractName
        elementName genT o = .error e →
      BackgroundReports.generate_excel_report_background elementFilter
          contractName elementName genT o =
        .markFailed (BackgroundReports.internalErrorMsg e)) ∧
    (∀ a, BackgroundReports.orchTryTabular elementFilter contractName
        elementName genT o = .ok a →
      BackgroundReports.generate_excel_report_background elementFilter
          contractName elementName genT o = a) ∧
    (∀ e, BackgroundReports.orchTryInstallers elementFilter contractName
        elementName genI o = .error e →
      BackgroundReports.generate_installers_excel_report_background
          elementFilter contractName elementName genI o =
        .markFailed (BackgroundReports.internalErrorMsg e)) ∧
    (∀ a, BackgroundReports.orchTryInstallers elementFilter contractName
        elementName genI o = .ok a →
      BackgroundReports.generate_installers_excel_report_background
          elementFilter contractName elementName genI o = a) := by
  refine ⟨?_, ?_, ?_, ?_⟩
  · intro e he
    simp [BackgroundReports.generate_excel_report_background, he]
  · intro a ha
    simp [BackgroundReports.generate_excel_report_background, ha]
  · intro e he
    simp [BackgroundReports.generate_installers_excel_report_background, he]
  · intro a ha
    simp [BackgroundReports.generate_installers_excel_report_background, ha]

/-- Witness for C6: both orchestrators with a contract lookup that
raises end in the failed state with the internal-error message. -/
theorem c6_orchestrator_catches_all_witness :
    BackgroundReports.generate_excel_report_background false "c" "e"
        (fun _ : List Unit => Except.ok ([] : BackgroundReports.Buffer))
        ⟨Except.error ⟨"boom"⟩, Except.ok true, Except.ok [], true⟩ =
      .markFailed (BackgroundReports.internalErrorMsg ⟨"boom"⟩) ∧
    BackgroundReports.generate_installers_excel_report_background false "c" "e"
        (fun _ : List Unit =>
          Except.ok (none : Option BackgroundReports.Buffer))
        ⟨Except.error ⟨"boom"⟩, Except.ok true, Except.ok [], true⟩ =
      .markFailed (BackgroundReports.internalErrorMsg ⟨"boom"⟩) :=
  ⟨(c6_orchestrator_catches_all false "c" "e"
      (fun _ : List Unit => Except.ok ([] : BackgroundReports.Buffer))
      (fun _ : List Unit => Except.ok (none : Option BackgroundReports.Buffer))
      ⟨Except.error ⟨"boom"⟩, Except.ok true, Except.ok [], true⟩).1
        ⟨"boom"⟩ rfl,
    ((c6_orchestrator_catches_all false "c" "e"
      (fun _ : List Unit => Except.ok ([] : BackgroundReports.Buffer))
      (fun _ : List Unit => Except.ok (none : Option BackgroundReports.Buffer))
      ⟨Except.error ⟨"boom"⟩, Except.ok true, Except.ok [], true⟩).2.2).1
        ⟨"boom"⟩ rfl⟩

/-- C10: `generate_installers_excel_report` returns None on the empty
asset list; consequently a background installers run whose lookups
succeed and whose filter window matches zero assets raises at
`.getvalue()` on that None, is caught by the orchestrator handler, and
ends in the failed state with the internal-error message — it never
reaches the completed state with an empty workbook. -/
theorem c10_installers_empty_report_fails {α : Type}
    (render : List α → BackgroundReports.Buffer) (elementFilter : Bool)
    (contractName elementName : String) (o : BackgroundReports.Oracle α)
    (hc : o.contractFound = .ok true)
    (he : o.elementFound = .ok true)
    (hf : o.fetchAssets = .ok []) :
    BackgroundReports.generate_installers_excel_report render ([] : List α) =
      none ∧
    BackgroundReports.generate_installers_excel_report_background
        elementFilter contractName elementName
        (fun a => Except.ok
          (BackgroundReports.generate_installers_excel_report render a)) o =
      .markFailed (BackgroundReports.internalErrorMsg
        ⟨BackgroundReports.noneGetvalueMsg⟩) ∧
    (∀ b, BackgroundReports.generate_installers_excel_report_background
        elementFilter contractName elementName
        (fun a => Except.ok
          (BackgroundReports.generate_installers_excel_report render a)) o ≠
      .markCompleted b) := by
  obtain ⟨cf, ef, fa, mc⟩ := o
  simp only [] at hc he hf
  subst hc
  subst he
  subst hf
  refine ⟨rfl, ?_, ?_⟩
  · cases elementFilter <;> rfl
  · cases elementFilter <;> exact fun b h => BackgroundReports.TaskAction.noConfusion h

/-- Witness for C10: the empty-window installers run with succeeding
lookups ends failed with the internal-error message. -/
theorem c10_installers_empty_report_fails_witness :
    BackgroundReports.generate_installers_excel_report
        (fun _ : List Unit => ([] : BackgroundReports.Buffer)) [] = none ∧
    BackgroundReports.generate_installers_excel_report_background false "c" "e"
        (fun a => Except.ok (BackgroundReports.generate_installers_excel_report
          (fun _ : List Unit => ([] : BackgroundReports.Buffer)) a))
        ⟨Except.ok true, Except.ok true, Except.ok [], true⟩ =
      .markFailed (BackgroundReports.internalErrorMsg
        ⟨BackgroundReports.noneGetvalueMsg⟩) :=
  ⟨(c10_installers_empty_report_fails
      (fun _ : List Unit => ([] : BackgroundReports.Buffer)) false "c" "e"
      ⟨Except.ok true, Except.ok true, Except.ok [], true⟩ rfl rfl rfl).1,
    (c10_installers_empty_report_fails
      (fun _ : List Unit => ([] : BackgroundReports.Buffer)) false "c" "e"
      ⟨Except.ok true, Except.ok true, Except.ok [], true⟩ rfl rfl rfl).2.1⟩
